import Mathlib

/-!
Shallow embedding of the cilk-validation-prototype kernels.

The repository computes, over a fixed 8-element double vector and a fixed
8-element int flag vector, two elementwise transforms
(`output[i] = -log(input[i]) * 2.0` and
`intermediate[i] = exp(-input[i]) / (input[i] + 0.1)`) and three reductions
(`count`, `sum`, `sum2`), in two variants: Cilk Plus array-section code and
explicit loops with OpenMP SIMD pragmas.  The repetition-mode variants run
the pipeline `ITERATIONS` times, accumulating into throwaway accumulators,
then recompute and print the canonical values.

Numbers are modelled over an arbitrary field `α` (doubles abstracted to
exact arithmetic; the claims under study concern the expression structure,
evaluation order and data flow, not binary rounding).  The libm calls `log`
and `exp` are abstracted as an explicit record `LibM α`, exactly as the C
code is parametric over the libm implementation it links against.
Arrays `double a[8]` are total maps `Fin 8 → α`; a C loop that stores into
`a[i]` for `i = 0..7` is a left fold of `Function.update` along the index
list `[0,…,7]`, starting from the (possibly garbage) previous contents.
-/

/-- VLENGTH from common.h: the fixed vector length (8). -/
def VLENGTH : Nat := 8

/-- TEST_INPUT from common.h: the fixed constant input vector
`{0.1, 0.2, 0.3, 0.4, 0.5, 0.6, 0.7, 0.8}`. -/
def TEST_INPUT (α : Type) [Field α] : Fin 8 → α :=
  ![1/10, 2/10, 3/10, 4/10, 5/10, 6/10, 7/10, 8/10]

/-- TEST_FLAGS from common.h: the fixed constant flag vector
`{1, 0, 1, 1, 0, 0, 1, 1}` (C ints, modelled as ℤ). -/
def TEST_FLAGS : Fin 8 → ℤ := ![1, 0, 1, 1, 0, 0, 1, 1]

/-- ITERATIONS from the repetition-mode sources (100). -/
def ITERATIONS : Nat := 100

/-- CLOCKS_PER_SEC, the POSIX value used by clock(). -/
def CLOCKS_PER_SEC (α : Type) [Field α] : α := 1000000

/-- The math.h interface the kernels call (log and exp), kept abstract:
the C sources are parametric over the linked libm implementation. -/
structure LibM (α : Type) where
  log : α → α
  exp : α → α

/-- The index sequence `i = 0, 1, …, 7` traversed by every
`for (int i = 0; i < VLENGTH; i++)` loop in the sources. -/
def loopIdx : List (Fin 8) := [0, 1, 2, 3, 4, 5, 6, 7]

/-- An explicit C loop `for i in 0..7: a[i] = f(i)` storing into an existing
array with previous contents `g` (uninitialized stack garbage at first use). -/
def loopWrite {β : Type} (f : Fin 8 → β) (g : Fin 8 → β) : Fin 8 → β :=
  loopIdx.foldl (fun a i => Function.update a i (f i)) g

/-- OpenMP-SIMD variant of transform A, the explicit loop
`for i: output[i] = -log(input[i]) * 2.0;` over previous contents `g`. -/
def loopTransformA {α : Type} [Field α] (L : LibM α) (input g : Fin 8 → α) :
    Fin 8 → α :=
  loopWrite (fun i => (-(L.log (input i))) * 2) g

/-- OpenMP-SIMD variant of transform B, the explicit loop
`for i: intermediate[i] = exp(-input[i]) / (input[i] + 0.1);`. -/
def loopTransformB {α : Type} [Field α] (L : LibM α) (input g : Fin 8 → α) :
    Fin 8 → α :=
  loopWrite (fun i => L.exp (-(input i)) / (input i + 1/10)) g

/-- The explicit reduction loop `acc = 0; for i in 0..7: acc += f(i);`
(used for count, sum and sum2 in the OpenMP variant). -/
def loopReduceAdd {β : Type} [AddCommMonoid β] (f : Fin 8 → β) : β :=
  loopIdx.foldl (fun s i => s + f i) 0

/-- Cilk array-section assignment `output[0:8] = -log(input[0:8]) * 2.0`:
the whole array is replaced elementwise. -/
def secTransformA {α : Type} [Field α] (L : LibM α) (input : Fin 8 → α) :
    Fin 8 → α :=
  fun i => (-(L.log (input i))) * 2

/-- Cilk array-section assignment
`intermediate[0:8] = exp(-input[0:8]) / (input[0:8] + 0.1)`. -/
def secTransformB {α : Type} [Field α] (L : LibM α) (input : Fin 8 → α) :
    Fin 8 → α :=
  fun i => L.exp (-(input i)) / (input i + 1/10)

/-- The Cilk built-in `__sec_reduce_add(a[0:8])`: the sum of the section. -/
def secReduceAdd {β : Type} [AddCommMonoid β] (f : Fin 8 → β) : β :=
  ∑ i, f i

/-- The five result scalars/vectors every variant computes and prints. -/
structure Values (α : Type) where
  output : Fin 8 → α
  intermediate : Fin 8 → α
  count : ℤ
  sum : α
  sum2 : α

/-- The mutable locals of a repetition-mode main: the four arrays and the
three volatile accumulators. -/
structure OState (α : Type) where
  input : Fin 8 → α
  flags : Fin 8 → ℤ
  output : Fin 8 → α
  intermediate : Fin 8 → α
  acc_sum : α
  acc_sum2 : α
  acc_count : ℤ

/-- Entry of main: arrays hold arbitrary stack garbage `g`, the volatile
accumulators are zeroed, and the init loop copies TEST_INPUT and TEST_FLAGS
into the local input and flags arrays. -/
def initState (α : Type) [Field α] (g : OState α) : OState α :=
  { input := loopWrite (TEST_INPUT α) g.input
    flags := loopWrite TEST_FLAGS g.flags
    output := g.output
    intermediate := g.intermediate
    acc_sum := 0
    acc_sum2 := 0
    acc_count := 0 }

/-- One iteration of the OpenMP repetition loop: transform A, transform B,
the three reduction loops, then `acc_sum += sum; acc_sum2 += sum2;
acc_count += count;`. -/
def iterBody {α : Type} [Field α] (L : LibM α) (s : OState α) : OState α :=
  let out := loopTransformA L s.input s.output
  let inter := loopTransformB L s.input s.intermediate
  let count := loopReduceAdd s.flags
  let sum := loopReduceAdd out
  let sum2 := loopReduceAdd inter
  { s with
    output := out
    intermediate := inter
    acc_sum := s.acc_sum + sum
    acc_sum2 := s.acc_sum2 + sum2
    acc_count := s.acc_count + count }

/-- One iteration of the Cilk repetition loop (array-section forms of the
same pipeline). -/
def cilkIterBody {α : Type} [Field α] (L : LibM α) (s : OState α) : OState α :=
  let out := secTransformA L s.input
  let inter := secTransformB L s.input
  let count := secReduceAdd s.flags
  let sum := secReduceAdd out
  let sum2 := secReduceAdd inter
  { s with
    output := out
    intermediate := inter
    acc_sum := s.acc_sum + sum
    acc_sum2 := s.acc_sum2 + sum2
    acc_count := s.acc_count + count }

/-- One single-shot pass of the explicit-loop pipeline over given tables,
with `gOut`/`gInter` the previous (garbage) contents of the two derived
arrays: transforms A and B then the three reduction loops. -/
def loopPassValues {α : Type} [Field α] (L : LibM α)
    (input : Fin 8 → α) (flags : Fin 8 → ℤ) (gOut gInter : Fin 8 → α) :
    Values α :=
  let out := loopTransformA L input gOut
  let inter := loopTransformB L input gInter
  { output := out
    intermediate := inter
    count := loopReduceAdd flags
    sum := loopReduceAdd out
    sum2 := loopReduceAdd inter }

/-- One single-shot pass of the array-section pipeline over given tables
(the body of cilk_test.c after initialization). -/
def cilkValues {α : Type} [Field α] (L : LibM α)
    (input : Fin 8 → α) (flags : Fin 8 → ℤ) : Values α :=
  let out := secTransformA L input
  let inter := secTransformB L input
  { output := out
    intermediate := inter
    count := secReduceAdd flags
    sum := secReduceAdd out
    sum2 := secReduceAdd inter }

/-- The values a single-shot (non-repetition) run of the explicit-loop
program computes from the fixed constant tables, starting from stack
garbage `g`. -/
def singleShotValues {α : Type} [Field α] (L : LibM α) (g : OState α) :
    Values α :=
  let s := initState α g
  loopPassValues L s.input s.flags s.output s.intermediate

/-- The canonical values the OpenMP repetition-mode main prints: run the
loop ITERATIONS times, then recompute transforms and reductions one final
time (openmp_simd_test.c lines after the timing printfs). -/
def openmpFinalValues {α : Type} [Field α] (L : LibM α) (g : OState α) :
    Values α :=
  let s := (iterBody L)^[ITERATIONS] (initState α g)
  loopPassValues L s.input s.flags s.output s.intermediate

/-- The values the Cilk repetition-mode main prints: run the loop
ITERATIONS times, then recompute only the three reductions from the arrays
as they stand after the last iteration. -/
def cilkRepFinalValues {α : Type} [Field α] (L : LibM α) (g : OState α) :
    Values α :=
  let s := (cilkIterBody L)^[ITERATIONS] (initState α g)
  { output := s.output
    intermediate := s.intermediate
    count := secReduceAdd s.flags
    sum := secReduceAdd s.output
    sum2 := secReduceAdd s.intermediate }

/-- One printed `key=value` line of stdout, keyed by constructor; the
payload carries the printed value (timing in ms as a scalar). -/
inductive Line (α : Type) where
  | timing (ms : α)
  | iterations (n : Nat)
  | vlength (n : Nat)
  | reductionCount (n : ℤ)
  | reductionSum (v : α)
  | reductionSum2 (v : α)
  | outputAt (i : Nat) (v : α)
  | intermediateAt (i : Nat) (v : α)
  deriving DecidableEq

/-- The key text to the left of `=` on a printed line. -/
def lineKey {α : Type} : Line α → String
  | Line.timing _ => "TIMING_MS"
  | Line.iterations _ => "ITERATIONS"
  | Line.vlength _ => "VLENGTH"
  | Line.reductionCount _ => "REDUCTION_COUNT"
  | Line.reductionSum _ => "REDUCTION_SUM"
  | Line.reductionSum2 _ => "REDUCTION_SUM2"
  | Line.outputAt i _ => "OUTPUT[" ++ toString i ++ "]"
  | Line.intermediateAt i _ => "INTERMEDIATE[" ++ toString i ++ "]"

/-- The printf conversion directive that renders the value of each line,
read off the printf calls in the sources: %.3f for TIMING_MS, %d for the
integer lines, and %.15g — a g-conversion with precision 15, i.e. 15
significant digits — for every double line (the two sums and the
per-index vector lines). -/
def lineFormat {α : Type} : Line α → String
  | Line.timing _ => "%.3f"
  | Line.iterations _ => "%d"
  | Line.vlength _ => "%d"
  | Line.reductionCount _ => "%d"
  | Line.reductionSum _ => "%.15g"
  | Line.reductionSum2 _ => "%.15g"
  | Line.outputAt _ _ => "%.15g"
  | Line.intermediateAt _ _ => "%.15g"

/-- The common tail of stdout printed by every variant: VLENGTH, the three
reductions, then OUTPUT[0..7] and INTERMEDIATE[0..7] one line per index. -/
def valueLines {α : Type} (v : Values α) : List (Line α) :=
  [Line.vlength VLENGTH, Line.reductionCount v.count,
   Line.reductionSum v.sum, Line.reductionSum2 v.sum2]
  ++ loopIdx.map (fun i => Line.outputAt i.val (v.output i))
  ++ loopIdx.map (fun i => Line.intermediateAt i.val (v.intermediate i))

/-- Full stdout of the OpenMP repetition-mode program, given the two
clock() readings taken before and after the loop:
`TIMING_MS=(stop-start)/CLOCKS_PER_SEC*1000`, `ITERATIONS`, then the value
lines of the post-loop recomputation. -/
def openmpLines {α : Type} [Field α] (L : LibM α) (g : OState α)
    (start stop : α) : List (Line α) :=
  Line.timing ((stop - start) / CLOCKS_PER_SEC α * 1000)
    :: Line.iterations ITERATIONS
    :: valueLines (openmpFinalValues L g)

/-- Full stdout of the Cilk repetition-mode program. -/
def cilkRepLines {α : Type} [Field α] (L : LibM α) (g : OState α)
    (start stop : α) : List (Line α) :=
  Line.timing ((stop - start) / CLOCKS_PER_SEC α * 1000)
    :: Line.iterations ITERATIONS
    :: valueLines (cilkRepFinalValues L g)

/-- Full stdout of the single-shot Cilk program (cilk_test.c): no timing
lines, just the value lines of one pass over the fixed tables. -/
def cilkSimpleLines {α : Type} [Field α] (L : LibM α) : List (Line α) :=
  valueLines (cilkValues L (TEST_INPUT α) TEST_FLAGS)

/-! Helper lemmas shared by the claim theorems. -/

/-- A full-coverage store loop overwrites every cell: its result is the
stored function, independent of the previous array contents. -/
theorem loopWrite_eq {β : Type} (f g : Fin 8 → β) : loopWrite f g = f := by
  funext j
  fin_cases j <;> simp [loopWrite, loopIdx, Function.update]

/-- The explicit reduction loop computes the section sum. -/
theorem loopReduceAdd_eq {β : Type} [AddCommMonoid β] (f : Fin 8 → β) :
    loopReduceAdd f = secReduceAdd f := by
  simp [loopReduceAdd, secReduceAdd, loopIdx, Fin.sum_univ_eight, add_assoc]

/-- The explicit reduction loop, unfolded to the left-to-right sum. -/
theorem loopReduceAdd_expand {β : Type} [AddCommMonoid β] (f : Fin 8 → β) :
    loopReduceAdd f = f 0 + f 1 + f 2 + f 3 + f 4 + f 5 + f 6 + f 7 := by
  simp [loopReduceAdd, loopIdx]

/-- The explicit transform-A loop equals the array-section assignment,
independently of the previous array contents. -/
theorem loopTransformA_eq {α : Type} [Field α] (L : LibM α)
    (input g : Fin 8 → α) : loopTransformA L input g = secTransformA L input :=
  loopWrite_eq _ _

/-- The explicit transform-B loop equals the array-section assignment,
independently of the previous array contents. -/
theorem loopTransformB_eq {α : Type} [Field α] (L : LibM α)
    (input g : Fin 8 → α) : loopTransformB L input g = secTransformB L input :=
  loopWrite_eq _ _

/-- The OpenMP loop body leaves the input and flags arrays untouched. -/
theorem iterBody_frame {α : Type} [Field α] (L : LibM α) (s : OState α) :
    (iterBody L s).input = s.input ∧ (iterBody L s).flags = s.flags :=
  ⟨rfl, rfl⟩

/-- Iterating the OpenMP loop body leaves input and flags untouched. -/
theorem iterate_frame {α : Type} [Field α] (L : LibM α) (n : Nat)
    (s : OState α) :
    ((iterBody L)^[n] s).input = s.input ∧
      ((iterBody L)^[n] s).flags = s.flags := by
  induction n with
  | zero => exact ⟨rfl, rfl⟩
  | succ n ih =>
      rw [Function.iterate_succ_apply']
      exact ⟨((iterBody_frame L _).1).trans ih.1,
        ((iterBody_frame L _).2).trans ih.2⟩

/-- The Cilk loop body leaves the input and flags arrays untouched. -/
theorem cilkIterBody_frame {α : Type} [Field α] (L : LibM α) (s : OState α) :
    (cilkIterBody L s).input = s.input ∧ (cilkIterBody L s).flags = s.flags :=
  ⟨rfl, rfl⟩

/-- Iterating the Cilk loop body leaves input and flags untouched. -/
theorem cilk_iterate_frame {α : Type} [Field α] (L : LibM α) (n : Nat)
    (s : OState α) :
    ((cilkIterBody L)^[n] s).input = s.input ∧
      ((cilkIterBody L)^[n] s).flags = s.flags := by
  induction n with
  | zero => exact ⟨rfl, rfl⟩
  | succ n ih =>
      rw [Function.iterate_succ_apply']
      exact ⟨((cilkIterBody_frame L _).1).trans ih.1,
        ((cilkIterBody_frame L _).2).trans ih.2⟩

/-- After initialization, the local input array holds TEST_INPUT and the
local flags array holds TEST_FLAGS. -/
theorem initState_input {α : Type} [Field α] (g : OState α) :
    (initState α g).input = TEST_INPUT α ∧ (initState α g).flags = TEST_FLAGS :=
  ⟨loopWrite_eq _ _, loopWrite_eq _ _⟩

/-- A single explicit-loop pass computes the same five results as the
array-section pass, whatever garbage the derived arrays held before. -/
theorem loopPassValues_eq {α : Type} [Field α] (L : LibM α)
    (input : Fin 8 → α) (flags : Fin 8 → ℤ) (gOut gInter : Fin 8 → α) :
    loopPassValues L input flags gOut gInter = cilkValues L input flags := by
  simp only [loopPassValues, cilkValues, loopTransformA_eq, loopTransformB_eq,
    loopReduceAdd_eq]

/-- The post-loop recomputation of the OpenMP repetition-mode program
yields exactly the array-section values of the fixed constant tables,
independently of the stack garbage. -/
theorem openmpFinalValues_eq {α : Type} [Field α] (L : LibM α)
    (g : OState α) :
    openmpFinalValues L g = cilkValues L (TEST_INPUT α) TEST_FLAGS := by
  unfold openmpFinalValues
  rw [loopPassValues_eq, (iterate_frame L ITERATIONS _).1,
    (iterate_frame L ITERATIONS _).2, (initState_input g).1,
    (initState_input g).2]

/-- A single-shot run of the explicit-loop pipeline over the fixed tables
yields the array-section values, independently of the stack garbage. -/
theorem singleShotValues_eq {α : Type} [Field α] (L : LibM α)
    (g : OState α) :
    singleShotValues L g = cilkValues L (TEST_INPUT α) TEST_FLAGS := by
  unfold singleShotValues
  rw [loopPassValues_eq, (initState_input g).1, (initState_input g).2]

/-- After at least one Cilk loop iteration the derived arrays hold the
section-transform of the (preserved) input array. -/
theorem cilk_iterate_arrays {α : Type} [Field α] (L : LibM α) (n : Nat)
    (s : OState α) :
    ((cilkIterBody L)^[n + 1] s).output = secTransformA L s.input ∧
      ((cilkIterBody L)^[n + 1] s).intermediate = secTransformB L s.input := by
  rw [Function.iterate_succ_apply']
  constructor
  · show secTransformA L ((cilkIterBody L)^[n] s).input = _
    rw [(cilk_iterate_frame L n s).1]
  · show secTransformB L ((cilkIterBody L)^[n] s).input = _
    rw [(cilk_iterate_frame L n s).1]

/-- The Cilk repetition-mode program's printed values also equal the
array-section values of the fixed tables (ITERATIONS = 100 ≥ 1, so the
arrays left by the last iteration are the transform of the input). -/
theorem cilkRepFinalValues_eq {α : Type} [Field α] (L : LibM α)
    (g : OState α) :
    cilkRepFinalValues L g = cilkValues L (TEST_INPUT α) TEST_FLAGS := by
  have harr := cilk_iterate_arrays L 99 (initState α g)
  have hfr := cilk_iterate_frame L (99 + 1) (initState α g)
  have h0 := initState_input g
  simp only [cilkRepFinalValues, cilkValues]
  rw [show ITERATIONS = 99 + 1 from rfl, harr.1, harr.2, hfr.2, h0.1, h0.2]

/-! Claim theorems. -/

/-- C1: For every index i with 0 ≤ i < 8, both variants of elementwise
transform A compute output[i] = -log(input[i]) * 2.0 over the fixed
constant input vector [0.1, …, 0.8]. -/
theorem C1_transformA_formula (α : Type) [Field α] (L : LibM α)
    (g : Fin 8 → α) (i : Fin 8) :
    loopTransformA L (TEST_INPUT α) g i = (-(L.log (TEST_INPUT α i))) * 2 ∧
      secTransformA L (TEST_INPUT α) i = (-(L.log (TEST_INPUT α i))) * 2 :=
  ⟨by rw [loopTransformA_eq]; rfl, rfl⟩

/-- C2: For every index i with 0 ≤ i < 8, both variants of elementwise
transform B compute intermediate[i] = exp(-input[i]) / (input[i] + 0.1)
over the fixed constant input vector. -/
theorem C2_transformB_formula (α : Type) [Field α] (L : LibM α)
    (g : Fin 8 → α) (i : Fin 8) :
    loopTransformB L (TEST_INPUT α) g i =
        L.exp (-(TEST_INPUT α i)) / (TEST_INPUT α i + 1/10) ∧
      secTransformB L (TEST_INPUT α) i =
        L.exp (-(TEST_INPUT α i)) / (TEST_INPUT α i + 1/10) :=
  ⟨by rw [loopTransformB_eq]; rfl, rfl⟩

/-- C3: The printed reductions sum and sum2 equal the left-to-right
sequential sums, in ascending index order 0..7, of the output vector and
of the intermediate vector respectively. -/
theorem C3_sequential_sums (α : Type) [Field α] (L : LibM α) (g : OState α) :
    (openmpFinalValues L g).sum =
        (openmpFinalValues L g).output 0 + (openmpFinalValues L g).output 1 +
        (openmpFinalValues L g).output 2 + (openmpFinalValues L g).output 3 +
        (openmpFinalValues L g).output 4 + (openmpFinalValues L g).output 5 +
        (openmpFinalValues L g).output 6 + (openmpFinalValues L g).output 7 ∧
      (openmpFinalValues L g).sum2 =
        (openmpFinalValues L g).intermediate 0 +
        (openmpFinalValues L g).intermediate 1 +
        (openmpFinalValues L g).intermediate 2 +
        (openmpFinalValues L g).intermediate 3 +
        (openmpFinalValues L g).intermediate 4 +
        (openmpFinalValues L g).intermediate 5 +
        (openmpFinalValues L g).intermediate 6 +
        (openmpFinalValues L g).intermediate 7 :=
  ⟨loopReduceAdd_expand _, loopReduceAdd_expand _⟩

/-- C4: The reduction count is the sum of all flag entries, and for the
fixed flag vector [1,0,1,1,0,0,1,1] the printed REDUCTION_COUNT is 5, in
both the explicit-loop program and the array-section program. -/
theorem C4_reduction_count (α : Type) [Field α] (L : LibM α) (g : OState α) :
    (∀ flags : Fin 8 → ℤ, loopReduceAdd flags = ∑ i, flags i) ∧
      (openmpFinalValues L g).count = 5 ∧
      (cilkValues L (TEST_INPUT α) TEST_FLAGS).count = 5 := by
  refine ⟨fun flags => loopReduceAdd_eq flags, ?_, ?_⟩
  · rw [openmpFinalValues_eq]
    show secReduceAdd TEST_FLAGS = 5
    decide
  · show secReduceAdd TEST_FLAGS = 5
    decide

/-- C5: In repetition mode the final post-loop recomputed values exactly
equal the single-shot run's values (for both repetition-mode variants),
and the printed lines are the timing lines followed by the value lines of
the single-shot result — the per-iteration accumulator totals appear
nowhere in them. -/
theorem C5_repetition_invariant (α : Type) [Field α] (L : LibM α)
    (g g' : OState α) (start stop : α) :
    openmpFinalValues L g = singleShotValues L g' ∧
      cilkRepFinalValues L g = singleShotValues L g' ∧
      openmpLines L g start stop =
        Line.timing ((stop - start) / CLOCKS_PER_SEC α * 1000)
          :: Line.iterations ITERATIONS
          :: valueLines (singleShotValues L g') := by
  refine ⟨?_, ?_, ?_⟩
  · rw [openmpFinalValues_eq, singleShotValues_eq]
  · rw [cilkRepFinalValues_eq, singleShotValues_eq]
  · simp only [openmpLines, openmpFinalValues_eq, singleShotValues_eq]

/-- C6: The array-section (Cilk) path and the explicit-loop (OpenMP SIMD)
path compute identical output, intermediate, count, sum and sum2 values on
any tables (so in particular on the fixed constant tables), the embedded
kernel functions are equal, and the two repetition-mode programs print
identical lines given the same clock readings. -/
theorem C6_variants_agree (α : Type) [Field α] (L : LibM α)
    (input : Fin 8 → α) (flags : Fin 8 → ℤ) (gOut gInter : Fin 8 → α)
    (g g' : OState α) (start stop : α) :
    loopPassValues L input flags gOut gInter = cilkValues L input flags ∧
      loopTransformA L input gOut = secTransformA L input ∧
      loopTransformB L input gInter = secTransformB L input ∧
      (∀ f : Fin 8 → α, loopReduceAdd f = secReduceAdd f) ∧
      (∀ f : Fin 8 → ℤ, loopReduceAdd f = secReduceAdd f) ∧
      openmpLines L g start stop = cilkRepLines L g' start stop := by
  refine ⟨loopPassValues_eq L input flags gOut gInter,
    loopTransformA_eq L input gOut, loopTransformB_eq L input gInter,
    fun f => loopReduceAdd_eq f, fun f => loopReduceAdd_eq f, ?_⟩
  simp only [openmpLines, cilkRepLines, openmpFinalValues_eq,
    cilkRepFinalValues_eq]

/-- C7: Stdout is exactly one key=value line per field, in the order
TIMING_MS, ITERATIONS (repetition mode only), VLENGTH, REDUCTION_COUNT,
REDUCTION_SUM, REDUCTION_SUM2, OUTPUT[0..7], INTERMEDIATE[0..7]; the value
lines carry the recomputed final values, and the two sums (like every
double line) are printed with the %.15g directive, i.e. to 15 significant
digits, while the integer lines use %d and the timing line %.3f. -/
theorem C7_output_contract (α : Type) [Field α] (L : LibM α) (g : OState α)
    (start stop : α) :
    (openmpLines L g start stop).map lineKey =
        ["TIMING_MS", "ITERATIONS", "VLENGTH", "REDUCTION_COUNT",
         "REDUCTION_SUM", "REDUCTION_SUM2",
         "OUTPUT[0]", "OUTPUT[1]", "OUTPUT[2]", "OUTPUT[3]",
         "OUTPUT[4]", "OUTPUT[5]", "OUTPUT[6]", "OUTPUT[7]",
         "INTERMEDIATE[0]", "INTERMEDIATE[1]", "INTERMEDIATE[2]",
         "INTERMEDIATE[3]", "INTERMEDIATE[4]", "INTERMEDIATE[5]",
         "INTERMEDIATE[6]", "INTERMEDIATE[7]"] ∧
      (cilkSimpleLines L).map lineKey =
        ["VLENGTH", "REDUCTION_COUNT", "REDUCTION_SUM", "REDUCTION_SUM2",
         "OUTPUT[0]", "OUTPUT[1]", "OUTPUT[2]", "OUTPUT[3]",
         "OUTPUT[4]", "OUTPUT[5]", "OUTPUT[6]", "OUTPUT[7]",
         "INTERMEDIATE[0]", "INTERMEDIATE[1]", "INTERMEDIATE[2]",
         "INTERMEDIATE[3]", "INTERMEDIATE[4]", "INTERMEDIATE[5]",
         "INTERMEDIATE[6]", "INTERMEDIATE[7]"] ∧
      (openmpLines L g start stop).map lineFormat =
        ["%.3f", "%d", "%d", "%d", "%.15g", "%.15g",
         "%.15g", "%.15g", "%.15g", "%.15g",
         "%.15g", "%.15g", "%.15g", "%.15g",
         "%.15g", "%.15g", "%.15g", "%.15g",
         "%.15g", "%.15g", "%.15g", "%.15g"] ∧
      (cilkSimpleLines L).map lineFormat =
        ["%d", "%d", "%.15g", "%.15g",
         "%.15g", "%.15g", "%.15g", "%.15g",
         "%.15g", "%.15g", "%.15g", "%.15g",
         "%.15g", "%.15g", "%.15g", "%.15g",
         "%.15g", "%.15g", "%.15g", "%.15g"] ∧
      openmpLines L g start stop =
        Line.timing ((stop - start) / CLOCKS_PER_SEC α * 1000)
          :: Line.iterations ITERATIONS
          :: valueLines (openmpFinalValues L g) :=
  ⟨rfl, rfl, rfl, rfl, rfl⟩

/-- A concrete libm instantiation over ℚ used to evaluate the embedded
program on explicit inputs. -/
def testLib : LibM ℚ := { log := id, exp := id }

/-- A concrete initial stack state (all locals zeroed) used to evaluate
the embedded program on explicit inputs. -/
def zeroState : OState ℚ :=
  { input := fun _ => 0
    flags := fun _ => 0
    output := fun _ => 0
    intermediate := fun _ => 0
    acc_sum := 0
    acc_sum2 := 0
    acc_count := 0 }

/-- C8 counterexample: two runs of the repetition-mode program whose
clock() readings differ (elapsed 1 second vs 0) print different TIMING_MS
lines, so the full stdout is not byte-identical across runs. -/
theorem C8_counterexample :
    openmpLines testLib zeroState 0 1000000 ≠ openmpLines testLib zeroState 0 0 := by
  intro h
  have h1 := congrArg List.head? h
  simp only [openmpLines, List.head?_cons, Option.some.injEq,
    Line.timing.injEq] at h1
  norm_num [CLOCKS_PER_SEC] at h1

/-- C8 (amended): with equal clock readings two runs print byte-identical
output — in particular no hidden state (the uninitialized stack contents)
influences any line — and runs with different clock readings agree on
every line after TIMING_MS. -/
theorem C8_determinism (α : Type) [Field α] (L : LibM α)
    (g g' : OState α) (start stop start' stop' : α) :
    openmpLines L g start stop = openmpLines L g' start stop ∧
      (openmpLines L g start stop).drop 1 =
        (openmpLines L g' start' stop').drop 1 := by
  have h : openmpFinalValues L g = openmpFinalValues L g' := by
    rw [openmpFinalValues_eq, openmpFinalValues_eq]
  exact ⟨by simp only [openmpLines, h], by simp only [openmpLines, h, List.drop]⟩

/-- C9: In transform B the divisor input[i] + 0.1 is nonzero (indeed
positive) at every index of the fixed input vector, whose entries lie in
(0, 1], so the division never divides by zero. -/
theorem C9_divisor_nonzero :
    ∀ i : Fin 8, 0 < TEST_INPUT ℚ i ∧ TEST_INPUT ℚ i ≤ 1 ∧
      0 < TEST_INPUT ℚ i + 1/10 ∧ TEST_INPUT ℚ i + 1/10 ≠ 0 := by
  intro i
  fin_cases i <;> norm_num [TEST_INPUT]

/-- C10: After initialization the input and flags arrays are never written
again: every repetition-loop iteration (in either variant) preserves them,
and at every iteration count they still hold the constant tables the init
loop copied in. -/
theorem C10_input_flags_frame (α : Type) [Field α] (L : LibM α)
    (g : OState α) (n : Nat) :
    ((iterBody L)^[n] (initState α g)).input = TEST_INPUT α ∧
      ((iterBody L)^[n] (initState α g)).flags = TEST_FLAGS ∧
      (∀ s : OState α,
        (iterBody L s).input = s.input ∧ (iterBody L s).flags = s.flags) ∧
      (∀ s : OState α,
        ((cilkIterBody L)^[n] s).input = s.input ∧
          ((cilkIterBody L)^[n] s).flags = s.flags) := by
  refine ⟨?_, ?_, fun s => iterBody_frame L s, fun s => cilk_iterate_frame L n s⟩
  · rw [(iterate_frame L n _).1, (initState_input g).1]
  · rw [(iterate_frame L n _).2, (initState_input g).2]
